import Mathlib

/-
Verification of the chat-server repository's room rendezvous / signaling core
and its durable pairing store.

Two components are embedded:

1. The in-memory WebSocket signaling server (the WebRTC P2P signaling server
   source file): global maps `clients : Map clientId {ws, roomId, isInitiator}`
   and `rooms : Map roomId (Set clientId)`, with the handlers
   handleJoinRoom / handleLeaveRoom / handleWebRTCSignaling /
   handleClientDisconnect and the per-message dispatcher.  JS `Map` is
   embedded as an association list (its iteration order is never observed by
   the modelled handlers, so the representation order is irrelevant); JS `Set`
   is embedded as an insertion-ordered duplicate-free list (`sadd` appends
   only when absent, matching `Set.add`; `sdel` removes the occurrence).
   Events are the parsed inbound messages plus the transport-lifecycle
   triggers; a `sockDied` event models the socket of a registered client
   ceasing to be OPEN before its close event has been processed (this is the
   state the code's `readyState === OPEN` guards test for).  `connect` models
   `wss.on('connection')` with a fresh `crypto.randomUUID()` identifier: a
   colliding identifier has cryptographically negligible probability, so the
   embedding makes `connect` a no-op on an already-registered id.
   Each handler returns the next state together with the ordered list of
   `ws.send` calls it performs (recipient, message).

2. The SQLite-backed durable pairing store (src/db-cli.js together with the
   REST handlers of the server file and the schema's AFTER INSERT / AFTER
   UPDATE cleanup triggers).  Timestamps are embedded as integers; the SQL
   comparison `datetime(exp) <= datetime('now')` becomes `exp <= now`, with a
   single `now` per store call (each store call is one transaction and the
   code deliberately keeps every comparison of a transaction on one clock
   reading).  A failed INSERT (primary-key violation) aborts only that
   statement; the sqlite3 command-line shell then exits nonzero, `runSql`
   rejects, and the route's catch turns this into the generic 500 response --
   embedded as the `createFailed` outcome with the database unchanged.
-/

namespace ChatServer

/-! ### Association-list maps (JS `Map`) and insertion-ordered sets (JS `Set`) -/

def mfind {α : Type} : List (String × α) → String → Option α
  | [], _ => none
  | (k', v) :: t, k => if k' = k then some v else mfind t k

def mdel {α : Type} : List (String × α) → String → List (String × α)
  | [], _ => []
  | (k', v) :: t, k => if k' = k then mdel t k else (k', v) :: mdel t k

def mset {α : Type} (m : List (String × α)) (k : String) (v : α) : List (String × α) :=
  (k, v) :: mdel m k

def sadd (s : List String) (x : String) : List String :=
  if x ∈ s then s else s ++ [x]

def sdel : List String → String → List String
  | [], _ => []
  | y :: t, x => if y = x then t else y :: sdel t x

/-! ### Live signaling model -/

inductive SigKind where
  | offer
  | answer
  | ice
deriving DecidableEq, Repr

inductive ServerMsg where
  | connected (clientId : String)
  | roomJoined (roomId : String) (userCount : Nat) (isInitiator : Bool) (ready : Bool)
  | roomReady (roomId : String) (userCount : Nat) (isInitiator : Bool)
  | forward (kind : SigKind) (fromId : String) (roomId : String) (payload : String)
  | peerLeft
  | peerDisconnected
  | leftRoom (roomId : Option String)
  | roomFull (roomId : String)
  | errMsg (text : String)
  | pong
deriving DecidableEq, Repr

structure Client where
  wsOpen : Bool
  roomId : Option String
  isInitiator : Bool
deriving DecidableEq, Repr

structure ServerState where
  clients : List (String × Client)
  rooms : List (String × List String)
deriving DecidableEq, Repr

abbrev Out := String × ServerMsg

def notifyRoomPeers (s : ServerState) (roomId : String) (msg : ServerMsg) : List Out :=
  match mfind s.rooms roomId with
  | none => []
  | some ms =>
    ms.filterMap (fun cid =>
      match mfind s.clients cid with
      | some c => if c.wsOpen then some (cid, msg) else none
      | none => none)

def removeFromOld (s : ServerState) (clientId : String) (c : Client) :
    ServerState × List Out :=
  match c.roomId with
  | some old =>
    match mfind s.rooms old with
    | some oldMs =>
      let oldMs' := sdel oldMs clientId
      if oldMs' = [] then
        ({ s with rooms := mdel s.rooms old }, ([] : List Out))
      else
        let s' := { s with rooms := mset s.rooms old oldMs' }
        (s', notifyRoomPeers s' old ServerMsg.peerLeft)
    | none => (s, ([] : List Out))
  | none => (s, ([] : List Out))

def joinRoomCore (s : ServerState) (clientId : String) (c : Client) (roomId : String) :
    ServerState × List Out :=
  let s1out := removeFromOld s clientId c
  let s1 := s1out.1
  let rooms2 :=
    match mfind s1.rooms roomId with
    | some _ => s1.rooms
    | none => mset s1.rooms roomId []
  let room := (mfind rooms2 roomId).getD []
  let isFirst : Bool := decide (room.length = 0)
  let room' := sadd room clientId
  let joined : Client := { wsOpen := c.wsOpen, roomId := some roomId, isInitiator := isFirst }
  let clients2 := mset s1.clients clientId joined
  let s2 : ServerState := { clients := clients2, rooms := mset rooms2 roomId room' }
  let userCount := room'.length
  let readyOuts :=
    if userCount = 2 then
      room'.enum.filterMap (fun p =>
        match mfind s2.clients p.2 with
        | some cl =>
          if cl.wsOpen then some (p.2, ServerMsg.roomReady roomId 2 (decide (p.1 = 0)))
          else none
        | none => none)
    else []
  (s2, s1out.2 ++ (clientId, ServerMsg.roomJoined roomId userCount isFirst
      (decide (userCount = 2))) :: readyOuts)

def handleJoinRoom (s : ServerState) (clientId : String) (c : Client)
    (roomIdOpt : Option String) : ServerState × List Out :=
  match roomIdOpt with
  | none => (s, [(clientId, ServerMsg.errMsg "Invalid roomId")])
  | some roomId =>
    if roomId = "" then (s, [(clientId, ServerMsg.errMsg "Invalid roomId")])
    else
      match mfind s.rooms roomId with
      | some ms =>
        if 2 ≤ ms.length then (s, [(clientId, ServerMsg.roomFull roomId)])
        else joinRoomCore s clientId c roomId
      | none => joinRoomCore s clientId c roomId

def handleLeaveRoom (s : ServerState) (clientId : String) (c : Client) :
    ServerState × List Out :=
  match c.roomId with
  | none => (s, [(clientId, ServerMsg.leftRoom none)])
  | some roomId =>
    match mfind s.rooms roomId with
    | none => (s, [(clientId, ServerMsg.leftRoom none)])
    | some ms =>
      let ms' := sdel ms clientId
      let s1 := { s with rooms := mset s.rooms roomId ms' }
      let outs1 := notifyRoomPeers s1 roomId ServerMsg.peerLeft
      let s2 := if ms' = [] then { s1 with rooms := mdel s1.rooms roomId } else s1
      let cleared : Client := { wsOpen := c.wsOpen, roomId := none, isInitiator := false }
      let s3 := { s2 with clients := mset s2.clients clientId cleared }
      (s3, outs1 ++ [(clientId, ServerMsg.leftRoom (some roomId))])

def handleWebRTCSignaling (s : ServerState) (clientId : String) (c : Client)
    (kind : SigKind) (payload : String) : ServerState × List Out :=
  match c.roomId with
  | none => (s, [(clientId, ServerMsg.errMsg "Not in a valid room for WebRTC signaling")])
  | some roomId =>
    match mfind s.rooms roomId with
    | none => (s, [(clientId, ServerMsg.errMsg "Not in a valid room for WebRTC signaling")])
    | some ms =>
      if ms.length ≠ 2 then
        (s, [(clientId, ServerMsg.errMsg "Room must have exactly 2 users for WebRTC")])
      else
        match ms.find? (fun i => i != clientId) with
        | none => (s, [])
        | some otherId =>
          match mfind s.clients otherId with
          | none => (s, [])
          | some oc =>
            if oc.wsOpen then (s, [(otherId, ServerMsg.forward kind clientId roomId payload)])
            else (s, [])

def handleClientDisconnect (s : ServerState) (clientId : String) :
    ServerState × List Out :=
  let s1out :=
    match mfind s.clients clientId with
    | some c =>
      match c.roomId with
      | some roomId =>
        match mfind s.rooms roomId with
        | some ms =>
          let ms' := sdel ms clientId
          let s' := { s with rooms := mset s.rooms roomId ms' }
          let outs := if ms' = [] then ([] : List Out)
            else notifyRoomPeers s' roomId ServerMsg.peerDisconnected
          let s'' := if ms' = [] then { s with rooms := mdel s.rooms roomId } else s'
          (s'', outs)
        | none => (s, ([] : List Out))
      | none => (s, ([] : List Out))
    | none => (s, ([] : List Out))
  ({ s1out.1 with clients := mdel s1out.1.clients clientId }, s1out.2)

inductive Event where
  | connect (id : String)
  | joinRoom (id : String) (roomId : Option String)
  | leaveRoom (id : String)
  | signal (id : String) (kind : SigKind) (payload : String)
  | ping (id : String)
  | sockDied (id : String)
  | disconnect (id : String)
deriving DecidableEq, Repr

def step (s : ServerState) : Event → ServerState × List Out
  | Event.connect id =>
    match mfind s.clients id with
    | none =>
      let fresh : Client := { wsOpen := true, roomId := none, isInitiator := false }
      ({ s with clients := mset s.clients id fresh }, [(id, ServerMsg.connected id)])
    | some _ => (s, [])
  | Event.joinRoom id ro =>
    match mfind s.clients id with
    | some c => handleJoinRoom s id c ro
    | none => (s, [])
  | Event.leaveRoom id =>
    match mfind s.clients id with
    | some c => handleLeaveRoom s id c
    | none => (s, [])
  | Event.signal id kind payload =>
    match mfind s.clients id with
    | some c => handleWebRTCSignaling s id c kind payload
    | none => (s, [])
  | Event.ping id =>
    match mfind s.clients id with
    | some _ => (s, [(id, ServerMsg.pong)])
    | none => (s, [])
  | Event.sockDied id =>
    match mfind s.clients id with
    | some c =>
      let dead : Client := { wsOpen := false, roomId := c.roomId, isInitiator := c.isInitiator }
      ({ s with clients := mset s.clients id dead }, [])
    | none => (s, [])
  | Event.disconnect id => handleClientDisconnect s id

def stepState (s : ServerState) (e : Event) : ServerState :=
  (step s e).1

def run (s : ServerState) (evs : List Event) : ServerState :=
  evs.foldl stepState s

def initState : ServerState :=
  { clients := [], rooms := [] }

/-! ### Durable pairing store (src/db-cli.js + schema triggers + REST routes) -/

structure PendingRow where
  client1 : String
  exp : Int
  client2 : Option String
  client1_token : Option String
  platform : Option String
deriving DecidableEq, Repr

structure RoomRow where
  client1 : String
  client2 : String
  client1_token : Option String
  client2_token : Option String
  client1_platform : Option String
  client2_platform : Option String
deriving DecidableEq, Repr

structure Db where
  pendings : List (String × PendingRow)
  rooms : List (String × RoomRow)
deriving DecidableEq, Repr

def purgeExpired (pendings : List (String × PendingRow)) (now : Int) :
    List (String × PendingRow) :=
  pendings.filter (fun q => decide (now < q.2.exp))

def createPending (db : Db) (now : Int) (joinid client1 : String) (exp : Int)
    (client1_token platform : Option String) : Db × Option PendingRow :=
  match mfind db.pendings joinid with
  | some _ => (db, none)
  | none =>
    let row : PendingRow :=
      { client1 := client1, exp := exp, client2 := none,
        client1_token := client1_token, platform := platform }
    (⟨purgeExpired (db.pendings ++ [(joinid, row)]) now, db.rooms⟩, some row)

inductive AcceptRes where
  | ok (roomid : String) (client1 : Option String)
  | notFoundOrExpired
deriving DecidableEq, Repr

def acceptPendingToRoom (db : Db) (now : Int) (joinid client2 roomid : String)
    (client2_token platform : Option String) : Db × AcceptRes :=
  let p1 := purgeExpired db.pendings now
  let rooms1 :=
    match mfind p1 joinid with
    | some p =>
      if now < p.exp ∧ (p.client2 = none ∨ p.client2 = some "") then
        match mfind db.rooms roomid with
        | some _ => db.rooms
        | none =>
          db.rooms ++ [(roomid,
            { client1 := p.client1, client2 := client2,
              client1_token := p.client1_token, client2_token := client2_token,
              client1_platform := p.platform, client2_platform := platform })]
      else db.rooms
    | none => db.rooms
  let p2 := p1.map (fun q =>
    if q.1 = joinid ∧ now < q.2.exp then
      (q.1, { q.2 with client2 := some client2 })
    else q)
  let p3 := purgeExpired p2 now
  match mfind rooms1 roomid with
  | some r => (⟨p3, rooms1⟩, AcceptRes.ok roomid (some r.client1))
  | none => (⟨p3, rooms1⟩, AcceptRes.notFoundOrExpired)

inductive CheckRes where
  | notFound
  | stillPending
  | ready (roomid : String)
deriving DecidableEq, Repr

def checkPending (db : Db) (now : Int) (joinid client1 : String) : Db × CheckRes :=
  let p1 := purgeExpired db.pendings now
  let db' : Db := ⟨p1, db.rooms⟩
  match p1.find? (fun q =>
      q.1 == joinid && q.2.client1 == client1 && decide (now < q.2.exp)) with
  | none => (db', CheckRes.notFound)
  | some q =>
    match q.2.client2 with
    | none => (db', CheckRes.stillPending)
    | some c2 =>
      if c2 = "" then (db', CheckRes.stillPending)
      else
        match db.rooms.find? (fun r => r.2.client1 == client1 && r.2.client2 == c2) with
        | none => (db', CheckRes.stillPending)
        | some r => (db', CheckRes.ready r.1)

def deletePending (db : Db) (joinid client1 : String) : Db × Nat :=
  let keep := db.pendings.filter (fun q => !(q.1 == joinid && q.2.client1 == client1))
  (⟨keep, db.rooms⟩, db.pendings.length - keep.length)

def cleanupExpired (db : Db) (now : Int) : Db × Nat :=
  let keep := purgeExpired db.pendings now
  (⟨keep, db.rooms⟩, db.pendings.length - keep.length)

/-! REST routes of the server file (the parts backed by the store).  A JSON
body field is `Option`-valued: `none` is an absent field, and the `required`
helper of the source also treats the empty string as missing. -/

def fieldMissing : Option String → Bool
  | none => true
  | some s => s == ""

structure CreateBody where
  joinid : Option String
  client1 : Option String
  expiresInSeconds : Option Int
deriving DecidableEq, Repr

inductive CreateResp where
  | created (exp : Int)
  | missingField (f : String)
  | invalidSeconds
  | createFailed
deriving DecidableEq, Repr

def CreateResp.status : CreateResp → Nat
  | CreateResp.created _ => 201
  | CreateResp.missingField _ => 400
  | CreateResp.invalidSeconds => 400
  | CreateResp.createFailed => 500

def postApiRooms (db : Db) (now : Int) (b : CreateBody) : Db × CreateResp :=
  if fieldMissing b.joinid then (db, CreateResp.missingField "joinid")
  else if fieldMissing b.client1 then (db, CreateResp.missingField "client1")
  else if b.expiresInSeconds = none then (db, CreateResp.missingField "expiresInSeconds")
  else
    let jid := b.joinid.getD ""
    let c1 := b.client1.getD ""
    let seconds := (b.expiresInSeconds.getD 0)
    if seconds < 1 ∨ 86400 < seconds then (db, CreateResp.invalidSeconds)
    else
      let expiryDate := now + seconds * 1000
      match createPending db now jid c1 expiryDate none none with
      | (db', some _) => (db', CreateResp.created expiryDate)
      | (db', none) => (db', CreateResp.createFailed)

inductive AcceptResp where
  | ok (roomid : String)
  | missingField (f : String)
  | notFoundOrExpired
deriving DecidableEq, Repr

def AcceptResp.status : AcceptResp → Nat
  | AcceptResp.ok _ => 200
  | AcceptResp.missingField _ => 400
  | AcceptResp.notFoundOrExpired => 404

def postApiRoomsAccept (db : Db) (now : Int) (joinid client2 : Option String)
    (roomid : String) : Db × AcceptResp :=
  if fieldMissing joinid then (db, AcceptResp.missingField "joinid")
  else if fieldMissing client2 then (db, AcceptResp.missingField "client2")
  else
    match acceptPendingToRoom db now (joinid.getD "") (client2.getD "") roomid none none with
    | (db', AcceptRes.ok rid _) => (db', AcceptResp.ok rid)
    | (db', AcceptRes.notFoundOrExpired) => (db', AcceptResp.notFoundOrExpired)

inductive CheckResp where
  | ok (roomid : String)
  | missingField (f : String)
  | noContent
  | notFound
deriving DecidableEq, Repr

def CheckResp.status : CheckResp → Nat
  | CheckResp.ok _ => 200
  | CheckResp.missingField _ => 400
  | CheckResp.noContent => 204
  | CheckResp.notFound => 404

def postApiRoomsCheck (db : Db) (now : Int) (joinid client1 : Option String) :
    Db × CheckResp :=
  if fieldMissing joinid then (db, CheckResp.missingField "joinid")
  else if fieldMissing client1 then (db, CheckResp.missingField "client1")
  else
    match checkPending db now (joinid.getD "") (client1.getD "") with
    | (db', CheckRes.notFound) => (db', CheckResp.notFound)
    | (db', CheckRes.stillPending) => (db', CheckResp.noContent)
    | (db', CheckRes.ready rid) =>
      ((deletePending db' (joinid.getD "") (client1.getD "")).1, CheckResp.ok rid)

/-- Primary-key discipline of the `pendings` table: join codes are unique.
Every database produced by the real store satisfies this (PK constraint). -/
def pendingsPK (db : Db) : Prop :=
  (db.pendings.map Prod.fst).Nodup

/-! ### Map and set lemmas -/

theorem mfind_mdel {α : Type} (m : List (String × α)) (k r : String) :
    mfind (mdel m k) r = if k = r then none else mfind m r := by
  induction m with
  | nil => simp [mdel, mfind]
  | cons hd t ih =>
    obtain ⟨k', v⟩ := hd
    by_cases h1 : k' = k
    · subst h1
      by_cases h2 : k' = r
      · subst h2; simp [mdel, mfind, ih]
      · simp [mdel, mfind, h2, ih]
    · by_cases h2 : k' = r
      · subst h2
        have hkr : ¬ (k = k') := fun h => h1 h.symm
        simp [mdel, mfind, h1, hkr]
      · simp [mdel, mfind, h1, h2, ih]

theorem mfind_mset {α : Type} (m : List (String × α)) (k : String) (v : α) (r : String) :
    mfind (mset m k v) r = if k = r then some v else mfind m r := by
  by_cases h : k = r <;> simp [mset, mfind, mfind_mdel, h]

theorem sdel_length_le (l : List String) (x : String) :
    (sdel l x).length ≤ l.length := by
  induction l with
  | nil => simp [sdel]
  | cons y t ih =>
    unfold sdel
    split
    · exact Nat.le_succ _
    · exact Nat.succ_le_succ ih

theorem sadd_length_le (l : List String) (x : String) :
    (sadd l x).length ≤ l.length + 1 := by
  unfold sadd
  split
  · omega
  · simp

/-! ### The two-party occupancy invariant -/

/-- Every live room ever holds at most two members. -/
def RoomsOK (s : ServerState) : Prop :=
  ∀ r ms, mfind s.rooms r = some ms → ms.length ≤ 2

theorem removeFromOld_sub (s : ServerState) (cid : String) (c : Client) (r : String)
    (ms : List String) (h : mfind (removeFromOld s cid c).1.rooms r = some ms) :
    mfind s.rooms r = some ms ∨
      ∃ ms0, mfind s.rooms r = some ms0 ∧ ms = sdel ms0 cid := by
  unfold removeFromOld at h
  split at h
  · rename_i old
    split at h
    · rename_i oldMs hold
      dsimp only at h
      split at h
      · dsimp only at h
        rw [mfind_mdel] at h
        split at h
        · exact Option.noConfusion h
        · exact Or.inl h
      · dsimp only at h
        rw [mfind_mset] at h
        split at h
        · rename_i heq
          injection h with hv
          exact Or.inr ⟨oldMs, heq ▸ hold, hv.symm⟩
        · exact Or.inl h
    · exact Or.inl h
  · exact Or.inl h

theorem joinTail_bound (rooms1 rooms2 : List (String × List String)) (cid roomId : String)
    (h2 : rooms2 = (match mfind rooms1 roomId with
                    | some _ => rooms1
                    | none => mset rooms1 roomId []))
    (hs : ∀ r ms, mfind rooms1 r = some ms → ms.length ≤ 2)
    (ht : ∀ ms, mfind rooms1 roomId = some ms → ms.length ≤ 1)
    (r : String) (ms : List String)
    (h : mfind (mset rooms2 roomId (sadd ((mfind rooms2 roomId).getD []) cid)) r = some ms) :
    ms.length ≤ 2 := by
  cases htar : mfind rooms1 roomId with
  | some tms =>
    rw [htar] at h2
    dsimp only at h2
    subst h2
    rw [htar] at h
    dsimp only [Option.getD] at h
    rw [mfind_mset] at h
    split at h
    · injection h with hv
      have h1 : tms.length ≤ 1 := ht tms htar
      have h2 : (sadd tms cid).length ≤ tms.length + 1 := sadd_length_le tms cid
      rw [← hv]
      omega
    · exact hs r ms h
  | none =>
    rw [htar] at h2
    dsimp only at h2
    subst h2
    have hin : mfind (mset rooms1 roomId ([] : List String)) roomId = some [] := by
      rw [mfind_mset]; simp
    rw [hin] at h
    dsimp only [Option.getD] at h
    rw [mfind_mset] at h
    split at h
    · injection h with hv
      rw [← hv]
      simp [sadd]
    · rw [mfind_mset] at h
      split at h
      · rename_i hne heq
        exact absurd heq hne
      · exact hs r ms h

theorem joinRoomCore_roomsOK (s : ServerState) (cid : String) (c : Client) (roomId : String)
    (hs : RoomsOK s)
    (ht : ∀ ms, mfind s.rooms roomId = some ms → ms.length ≤ 1) :
    RoomsOK (joinRoomCore s cid c roomId).1 := by
  have hs1 : ∀ r ms, mfind (removeFromOld s cid c).1.rooms r = some ms → ms.length ≤ 2 := by
    intro r ms h
    rcases removeFromOld_sub s cid c r ms h with h' | ⟨ms0, h0, hd⟩
    · exact hs r ms h'
    · calc ms.length = (sdel ms0 cid).length := by rw [hd]
        _ ≤ ms0.length := sdel_length_le _ _
        _ ≤ 2 := hs r ms0 h0
  have ht1 : ∀ ms, mfind (removeFromOld s cid c).1.rooms roomId = some ms → ms.length ≤ 1 := by
    intro ms h
    rcases removeFromOld_sub s cid c roomId ms h with h' | ⟨ms0, h0, hd⟩
    · exact ht ms h'
    · calc ms.length = (sdel ms0 cid).length := by rw [hd]
        _ ≤ ms0.length := sdel_length_le _ _
        _ ≤ 1 := ht ms0 h0
  intro r ms h
  exact joinTail_bound (removeFromOld s cid c).1.rooms _ cid roomId rfl hs1 ht1 r ms h

theorem handleJoinRoom_roomsOK (s : ServerState) (cid : String) (c : Client)
    (ro : Option String) (hs : RoomsOK s) : RoomsOK (handleJoinRoom s cid c ro).1 := by
  unfold handleJoinRoom
  split
  · exact hs
  · rename_i roomId
    split
    · exact hs
    · split
      · rename_i ms hm
        split
        · exact hs
        · rename_i hlt
          apply joinRoomCore_roomsOK s cid c roomId hs
          intro ms' h'
          rw [hm] at h'
          injection h' with hv
          rw [← hv]
          omega
      · rename_i hm
        apply joinRoomCore_roomsOK s cid c roomId hs
        intro ms' h'
        rw [hm] at h'
        exact Option.noConfusion h'

theorem handleLeaveRoom_sub (s : ServerState) (cid : String) (c : Client) (r : String)
    (ms : List String) (h : mfind (handleLeaveRoom s cid c).1.rooms r = some ms) :
    mfind s.rooms r = some ms ∨
      ∃ ms0, mfind s.rooms r = some ms0 ∧ ms = sdel ms0 cid := by
  unfold handleLeaveRoom at h
  split at h
  · exact Or.inl h
  · rename_i roomId
    split at h
    · exact Or.inl h
    · rename_i ms0 hm
      dsimp only at h
      split at h
      · dsimp only at h
        rw [mfind_mdel] at h
        split at h
        · exact Option.noConfusion h
        · rw [mfind_mset] at h
          split at h
          · rename_i hne heq
            exact absurd heq hne
          · exact Or.inl h
      · dsimp only at h
        rw [mfind_mset] at h
        split at h
        · rename_i heq
          injection h with hv
          exact Or.inr ⟨ms0, heq ▸ hm, hv.symm⟩
        · exact Or.inl h

theorem handleLeaveRoom_roomsOK (s : ServerState) (cid : String) (c : Client)
    (hs : RoomsOK s) : RoomsOK (handleLeaveRoom s cid c).1 := by
  intro r ms h
  rcases handleLeaveRoom_sub s cid c r ms h with h' | ⟨ms0, h0, hd⟩
  · exact hs r ms h'
  · calc ms.length = (sdel ms0 cid).length := by rw [hd]
      _ ≤ ms0.length := sdel_length_le _ _
      _ ≤ 2 := hs r ms0 h0

theorem handleClientDisconnect_sub (s : ServerState) (cid : String) (r : String)
    (ms : List String) (h : mfind (handleClientDisconnect s cid).1.rooms r = some ms) :
    mfind s.rooms r = some ms ∨
      ∃ ms0, mfind s.rooms r = some ms0 ∧ ms = sdel ms0 cid := by
  unfold handleClientDisconnect at h
  dsimp only at h
  split at h
  · rename_i c hc
    split at h
    · rename_i roomId hro
      split at h
      · rename_i ms0 hm
        dsimp only at h
        split at h
        · dsimp only at h
          rw [mfind_mdel] at h
          split at h
          · exact Option.noConfusion h
          · exact Or.inl h
        · dsimp only at h
          rw [mfind_mset] at h
          split at h
          · rename_i heq
            injection h with hv
            exact Or.inr ⟨ms0, heq ▸ hm, hv.symm⟩
          · exact Or.inl h
      · exact Or.inl h
    · exact Or.inl h
  · exact Or.inl h

theorem handleClientDisconnect_roomsOK (s : ServerState) (cid : String)
    (hs : RoomsOK s) : RoomsOK (handleClientDisconnect s cid).1 := by
  intro r ms h
  rcases handleClientDisconnect_sub s cid r ms h with h' | ⟨ms0, h0, hd⟩
  · exact hs r ms h'
  · calc ms.length = (sdel ms0 cid).length := by rw [hd]
      _ ≤ ms0.length := sdel_length_le _ _
      _ ≤ 2 := hs r ms0 h0

theorem handleWebRTCSignaling_state (s : ServerState) (cid : String) (c : Client)
    (kind : SigKind) (payload : String) :
    (handleWebRTCSignaling s cid c kind payload).1 = s := by
  unfold handleWebRTCSignaling
  repeat' split
  all_goals rfl

theorem step_roomsOK (s : ServerState) (e : Event) (hs : RoomsOK s) :
    RoomsOK (step s e).1 := by
  cases e with
  | connect id =>
    simp only [step]
    split <;> exact fun r ms h => hs r ms h
  | joinRoom id ro =>
    simp only [step]
    split
    · rename_i c hc
      exact handleJoinRoom_roomsOK s id c ro hs
    · exact hs
  | leaveRoom id =>
    simp only [step]
    split
    · rename_i c hc
      exact handleLeaveRoom_roomsOK s id c hs
    · exact hs
  | signal id kind payload =>
    simp only [step]
    split
    · rename_i c hc
      rw [handleWebRTCSignaling_state]
      exact hs
    · exact hs
  | ping id =>
    simp only [step]
    split <;> exact fun r ms h => hs r ms h
  | sockDied id =>
    simp only [step]
    split <;> exact fun r ms h => hs r ms h
  | disconnect id =>
    exact handleClientDisconnect_roomsOK s id hs

theorem run_roomsOK (evs : List Event) (s : ServerState) (hs : RoomsOK s) :
    RoomsOK (run s evs) := by
  induction evs generalizing s with
  | nil => exact hs
  | cons e t ih => exact ih (stepState s e) (step_roomsOK s e hs)

theorem initState_roomsOK : RoomsOK initState := by
  intro r ms h
  exact Option.noConfusion h

/-! ### Claim C1 -/

/-- Claim C1: for every sequence of events processed by the signaling server
(join_room, leave_room, disconnect and the rest), the occupancy of every live
room never exceeds 2; and a join_room for a room at occupancy 2 by a
registered connection that is not a member yields exactly a room_full reply
to the requester and leaves the entire state (hence that room's occupancy)
unchanged. -/
theorem claim_C1 :
    (∀ evs r ms, mfind (run initState evs).rooms r = some ms → ms.length ≤ 2) ∧
    (∀ (s : ServerState) (sender : String) (c : Client) (r : String) (ms : List String),
      mfind s.clients sender = some c → r ≠ "" →
      mfind s.rooms r = some ms → ms.length = 2 → sender ∉ ms →
      step s (Event.joinRoom sender (some r)) = (s, [(sender, ServerMsg.roomFull r)])) := by
  constructor
  · intro evs r ms h
    exact run_roomsOK evs initState initState_roomsOK r ms h
  · intro s sender c r ms hc hr hm hlen hmem
    simp only [step, hc]
    unfold handleJoinRoom
    simp only [hm, if_neg hr]
    rw [if_pos (show 2 ≤ ms.length by omega)]

/-- Witness for C1 at a concrete run: rooms stay within two members, and the
third connection's join_room on the full room is answered with room_full and
no state change. -/
theorem claim_C1_witness :
    (["A", "B"] : List String).length ≤ 2 ∧
    step (run initState [Event.connect "A", Event.connect "B", Event.connect "C",
        Event.joinRoom "A" (some "r"), Event.joinRoom "B" (some "r")])
      (Event.joinRoom "C" (some "r")) =
      (run initState [Event.connect "A", Event.connect "B", Event.connect "C",
        Event.joinRoom "A" (some "r"), Event.joinRoom "B" (some "r")],
       [("C", ServerMsg.roomFull "r")]) := by
  refine ⟨claim_C1.1 [Event.connect "A", Event.connect "B", Event.connect "C",
      Event.joinRoom "A" (some "r"), Event.joinRoom "B" (some "r")] "r" ["A", "B"] (by rfl),
    claim_C1.2 _ "C" { wsOpen := true, roomId := none, isInitiator := false } "r" ["A", "B"]
      (by rfl) (by decide) (by rfl) (by rfl) (by decide)⟩

/-! ### Claim C9 -/

theorem joinRoomCore_snd (s : ServerState) (cid : String) (c : Client) (roomId : String) :
    ∃ pre uc ini rdy post, (joinRoomCore s cid c roomId).2 =
      pre ++ (cid, ServerMsg.roomJoined roomId uc ini rdy) :: post :=
  ⟨_, _, _, _, _, rfl⟩

/-- Counterexample to C9 as stated: after A and B fill room r, member A itself
sends join_room for r and is answered with room_full, although A is one of the
two occupants. -/
theorem claim_C9_counterexample :
    mfind (run initState [Event.connect "A", Event.connect "B",
        Event.joinRoom "A" (some "r"), Event.joinRoom "B" (some "r")]).rooms "r"
      = some ["A", "B"] ∧
    "A" ∈ (["A", "B"] : List String) ∧
    (step (run initState [Event.connect "A", Event.connect "B",
        Event.joinRoom "A" (some "r"), Event.joinRoom "B" (some "r")])
      (Event.joinRoom "A" (some "r"))).2 = [("A", ServerMsg.roomFull "r")] := by
  refine ⟨by rfl, by decide, by rfl⟩

/-- C9 amended: join_room (valid room id, registered sender) is answered with
room_full exactly when the target room already has at least 2 occupants at the
moment of the request -- regardless of whether the sender is one of them; the
code performs no membership exclusion. -/
theorem claim_C9_amended (s : ServerState) (sender : String) (c : Client) (r : String)
    (hc : mfind s.clients sender = some c) (hr : r ≠ "") :
    (∃ ms, mfind s.rooms r = some ms ∧ 2 ≤ ms.length) ↔
      (step s (Event.joinRoom sender (some r))).2 = [(sender, ServerMsg.roomFull r)] := by
  constructor
  · rintro ⟨ms, hm, hge⟩
    simp only [step, hc]
    unfold handleJoinRoom
    simp only [hm, if_neg hr]
    rw [if_pos hge]
  · intro h
    cases hm : mfind s.rooms r with
    | some ms =>
      by_cases hge : 2 ≤ ms.length
      · exact ⟨ms, rfl, hge⟩
      · exfalso
        simp only [step, hc] at h
        unfold handleJoinRoom at h
        simp only [hm, if_neg hr] at h
        rw [if_neg hge] at h
        obtain ⟨pre, uc, ini, rdy, post, he⟩ := joinRoomCore_snd s sender c r
        rw [he] at h
        have hmem : (sender, ServerMsg.roomJoined r uc ini rdy)
            ∈ [(sender, ServerMsg.roomFull r)] :=
          h ▸ List.mem_append_right _ (List.mem_cons_self _ _)
        rw [List.mem_singleton] at hmem
        exact ServerMsg.noConfusion (congrArg Prod.snd hmem)
    | none =>
      exfalso
      simp only [step, hc] at h
      unfold handleJoinRoom at h
      simp only [hm, if_neg hr] at h
      obtain ⟨pre, uc, ini, rdy, post, he⟩ := joinRoomCore_snd s sender c r
      rw [he] at h
      have hmem : (sender, ServerMsg.roomJoined r uc ini rdy)
          ∈ [(sender, ServerMsg.roomFull r)] :=
        h ▸ List.mem_append_right _ (List.mem_cons_self _ _)
      rw [List.mem_singleton] at hmem
      exact ServerMsg.noConfusion (congrArg Prod.snd hmem)

/-- Witness for the amended C9 at a concrete full room, applied to the member
itself. -/
theorem claim_C9_amended_witness :
    (step (run initState [Event.connect "A", Event.connect "B",
        Event.joinRoom "A" (some "r"), Event.joinRoom "B" (some "r")])
      (Event.joinRoom "A" (some "r"))).2 = [("A", ServerMsg.roomFull "r")] :=
  (claim_C9_amended (run initState [Event.connect "A", Event.connect "B",
      Event.joinRoom "A" (some "r"), Event.joinRoom "B" (some "r")]) "A"
    { wsOpen := true, roomId := some "r", isInitiator := true } "r"
    (by rfl) (by decide)).mp ⟨["A", "B"], by rfl, by decide⟩

/-! ### Claim C3 -/

/-- Counterexample to C3 as stated: A (initiator) and B fill room r, A leaves,
C joins the 1-occupant room.  The new arrival C is reported isInitiator:false,
but the remaining original member B -- whose original role was receiver -- is
sent room_ready with isInitiator:true: the room_ready loop recomputes the
initiator from the current arrival order (index 0), so B retroactively becomes
the initiator in an event sent to it. -/
theorem claim_C3_counterexample :
    (step (run initState [Event.connect "A", Event.connect "B",
        Event.joinRoom "A" (some "r"), Event.joinRoom "B" (some "r"),
        Event.leaveRoom "A", Event.connect "C"])
      (Event.joinRoom "C" (some "r"))).2 =
      [("C", ServerMsg.roomJoined "r" 2 false true),
       ("B", ServerMsg.roomReady "r" 2 true),
       ("C", ServerMsg.roomReady "r" 2 false)] ∧
    ("B", ServerMsg.roomReady "r" 2 true) ∈
      (step (run initState [Event.connect "A", Event.connect "B",
          Event.joinRoom "A" (some "r"), Event.joinRoom "B" (some "r"),
          Event.leaveRoom "A", Event.connect "C"])
        (Event.joinRoom "C" (some "r"))).2 := by
  refine ⟨by rfl, by decide⟩

/-- C3 amended: the first connection to join an absent (empty) room is reported
isInitiator:true in room_joined; a connection with no current room joining a
1-occupant room is reported isInitiator:false in room_joined and in its
room_ready, and the pre-existing member's stored client record is unchanged --
but the room_ready event sent to that pre-existing member carries
isInitiator:true, recomputed from the current arrival order (so after the
original initiator left, the remaining original receiver is reported as the
initiator in room_ready). -/
theorem claim_C3_amended :
    (∀ (s : ServerState) (sender : String) (c : Client) (r : String),
      mfind s.clients sender = some c → c.roomId = none → r ≠ "" →
      mfind s.rooms r = none →
      (step s (Event.joinRoom sender (some r))).2 =
        [(sender, ServerMsg.roomJoined r 1 true false)]) ∧
    (∀ (s : ServerState) (sender : String) (c : Client) (r m : String) (cm : Client),
      mfind s.clients sender = some c → c.roomId = none → c.wsOpen = true → r ≠ "" →
      mfind s.rooms r = some [m] → m ≠ sender →
      mfind s.clients m = some cm → cm.wsOpen = true →
      (step s (Event.joinRoom sender (some r))).2 =
        [(sender, ServerMsg.roomJoined r 2 false true),
         (m, ServerMsg.roomReady r 2 true),
         (sender, ServerMsg.roomReady r 2 false)] ∧
      mfind (step s (Event.joinRoom sender (some r))).1.clients m = some cm) := by
  constructor
  · intro s sender c r hc hro hr hm
    simp only [step, hc]
    unfold handleJoinRoom
    simp only [hm, if_neg hr]
    unfold joinRoomCore removeFromOld
    simp only [hro, hm]
    simp [mfind_mset, sadd]
  · intro s sender c r m cm hc hro hcw hr hm hne hmc hcmw
    have hsm : ¬ sender = m := fun h => hne h.symm
    constructor
    · simp only [step, hc]
      unfold handleJoinRoom
      simp only [hm, if_neg hr]
      rw [if_neg (by simp)]
      unfold joinRoomCore removeFromOld
      simp only [hro, hm]
      simp [mfind_mset, sadd, hsm, List.enum, hmc, hcmw, hcw]
    · simp only [step, hc]
      unfold handleJoinRoom
      simp only [hm, if_neg hr]
      rw [if_neg (by simp)]
      unfold joinRoomCore removeFromOld
      simp only [hro, hm]
      simp [mfind_mset, hsm, hmc]

/-- Witness for the amended C3: a first join into an absent room, and the
post-initiator-departure third join of the counterexample trace. -/
theorem claim_C3_amended_witness :
    (step (run initState [Event.connect "A"]) (Event.joinRoom "A" (some "q"))).2 =
      [("A", ServerMsg.roomJoined "q" 1 true false)] ∧
    (step (run initState [Event.connect "A", Event.connect "B",
        Event.joinRoom "A" (some "r"), Event.joinRoom "B" (some "r"),
        Event.leaveRoom "A", Event.connect "C"])
      (Event.joinRoom "C" (some "r"))).2 =
      [("C", ServerMsg.roomJoined "r" 2 false true),
       ("B", ServerMsg.roomReady "r" 2 true),
       ("C", ServerMsg.roomReady "r" 2 false)] ∧
    mfind (step (run initState [Event.connect "A", Event.connect "B",
        Event.joinRoom "A" (some "r"), Event.joinRoom "B" (some "r"),
        Event.leaveRoom "A", Event.connect "C"])
      (Event.joinRoom "C" (some "r"))).1.clients "B" =
      some { wsOpen := true, roomId := some "r", isInitiator := false } := by
  refine ⟨claim_C3_amended.1 (run initState [Event.connect "A"]) "A"
      { wsOpen := true, roomId := none, isInitiator := false } "q"
      (by rfl) (by rfl) (by decide) (by rfl),
    (claim_C3_amended.2 (run initState [Event.connect "A", Event.connect "B",
        Event.joinRoom "A" (some "r"), Event.joinRoom "B" (some "r"),
        Event.leaveRoom "A", Event.connect "C"]) "C"
      { wsOpen := true, roomId := none, isInitiator := false } "r" "B"
      { wsOpen := true, roomId := some "r", isInitiator := false }
      (by rfl) (by rfl) (by rfl) (by decide) (by rfl) (by decide) (by rfl) (by rfl)).1,
    (claim_C3_amended.2 (run initState [Event.connect "A", Event.connect "B",
        Event.joinRoom "A" (some "r"), Event.joinRoom "B" (some "r"),
        Event.leaveRoom "A", Event.connect "C"]) "C"
      { wsOpen := true, roomId := none, isInitiator := false } "r" "B"
      { wsOpen := true, roomId := some "r", isInitiator := false }
      (by rfl) (by rfl) (by rfl) (by decide) (by rfl) (by decide) (by rfl) (by rfl)).2⟩

/-! ### Claim C4 -/

/-- Counterexample to C4 as stated: A and B share room r (occupancy 2), B's
socket has ceased to be OPEN but its close event has not yet been processed;
A's webrtc_offer is then silently dropped -- nothing is delivered to the one
other member and no error is sent -- where the claim promises delivery. -/
theorem claim_C4_counterexample :
    mfind (run initState [Event.connect "A", Event.connect "B",
        Event.joinRoom "A" (some "r"), Event.joinRoom "B" (some "r"),
        Event.sockDied "B"]).rooms "r" = some ["A", "B"] ∧
    mfind (run initState [Event.connect "A", Event.connect "B",
        Event.joinRoom "A" (some "r"), Event.joinRoom "B" (some "r"),
        Event.sockDied "B"]).clients "A" =
      some { wsOpen := true, roomId := some "r", isInitiator := true } ∧
    (step (run initState [Event.connect "A", Event.connect "B",
        Event.joinRoom "A" (some "r"), Event.joinRoom "B" (some "r"),
        Event.sockDied "B"])
      (Event.signal "A" SigKind.offer "sdp0")).2 = [] := by
  refine ⟨by rfl, by rfl, by rfl⟩

/-- C4 amended: a signaling message from a sender with no room is answered
with the NotInRoom error; from a sender whose room has occupancy different
from 2 with the RoomNotReady error, and nothing is delivered to anyone; at
occupancy 2 the payload is forwarded verbatim, together with the sender id
and the room id, to exactly the one other member -- provided that member's
transport is still OPEN; if it is not, the message is silently dropped (no
delivery, no error to the sender).  The server state is unchanged in every
case. -/
theorem claim_C4_amended :
    (∀ (s : ServerState) (sender : String) (c : Client) (k : SigKind) (p : String),
      mfind s.clients sender = some c → c.roomId = none →
      step s (Event.signal sender k p) =
        (s, [(sender, ServerMsg.errMsg "Not in a valid room for WebRTC signaling")])) ∧
    (∀ (s : ServerState) (sender : String) (c : Client) (k : SigKind) (p : String)
        (r : String) (ms : List String),
      mfind s.clients sender = some c → c.roomId = some r →
      mfind s.rooms r = some ms → ms.length ≠ 2 →
      step s (Event.signal sender k p) =
        (s, [(sender, ServerMsg.errMsg "Room must have exactly 2 users for WebRTC")])) ∧
    (∀ (s : ServerState) (sender : String) (c : Client) (k : SigKind) (p : String)
        (r a b : String) (oc : Client),
      mfind s.clients sender = some c → c.roomId = some r →
      mfind s.rooms r = some [a, b] → a ≠ b → (sender = a ∨ sender = b) →
      mfind s.clients (if sender = a then b else a) = some oc →
      step s (Event.signal sender k p) =
        (s, if oc.wsOpen
            then [((if sender = a then b else a), ServerMsg.forward k sender r p)]
            else [])) := by
  refine ⟨?_, ?_, ?_⟩
  · intro s sender c k p hc hro
    simp only [step, hc]
    unfold handleWebRTCSignaling
    simp only [hro]
  · intro s sender c k p r ms hc hro hm hlen
    simp only [step, hc]
    unfold handleWebRTCSignaling
    simp only [hro, hm]
    rw [if_pos hlen]
  · intro s sender c k p r a b oc hc hro hm hne hor hoc
    have hba : b ≠ a := Ne.symm hne
    simp only [step, hc]
    unfold handleWebRTCSignaling
    simp only [hro, hm]
    rw [if_neg (show ¬ ([a, b].length ≠ 2) by simp)]
    rcases hor with h1 | h1
    · subst h1
      rw [if_pos rfl] at hoc
      cases hocw : oc.wsOpen <;>
        simp [List.find?, bne_iff_ne.mpr hba, hoc, hocw]
    · subst h1
      rw [if_neg (fun h => hba h)] at hoc
      cases hocw : oc.wsOpen <;>
        simp [List.find?, bne_iff_ne.mpr hne, hba, hoc, hocw]

/-- Witness for the amended C4: the three branches at concrete states -- no
room, a 1-occupant room, and a full room with a live peer (delivery) and with
a dead peer (silent drop). -/
theorem claim_C4_amended_witness :
    step (run initState [Event.connect "A"]) (Event.signal "A" SigKind.offer "x") =
      (run initState [Event.connect "A"],
       [("A", ServerMsg.errMsg "Not in a valid room for WebRTC signaling")]) ∧
    step (run initState [Event.connect "A", Event.joinRoom "A" (some "r")])
      (Event.signal "A" SigKind.ice "y") =
      (run initState [Event.connect "A", Event.joinRoom "A" (some "r")],
       [("A", ServerMsg.errMsg "Room must have exactly 2 users for WebRTC")]) ∧
    step (run initState [Event.connect "A", Event.connect "B",
        Event.joinRoom "A" (some "r"), Event.joinRoom "B" (some "r")])
      (Event.signal "A" SigKind.offer "sdp0") =
      (run initState [Event.connect "A", Event.connect "B",
        Event.joinRoom "A" (some "r"), Event.joinRoom "B" (some "r")],
       [("B", ServerMsg.forward SigKind.offer "A" "r" "sdp0")]) ∧
    step (run initState [Event.connect "A", Event.connect "B",
        Event.joinRoom "A" (some "r"), Event.joinRoom "B" (some "r"),
        Event.sockDied "B"])
      (Event.signal "A" SigKind.offer "sdp0") =
      (run initState [Event.connect "A", Event.connect "B",
        Event.joinRoom "A" (some "r"), Event.joinRoom "B" (some "r"),
        Event.sockDied "B"], []) := by
  refine ⟨claim_C4_amended.1 _ "A" { wsOpen := true, roomId := none, isInitiator := false }
      SigKind.offer "x" (by rfl) (by rfl),
    claim_C4_amended.2.1 _ "A" { wsOpen := true, roomId := some "r", isInitiator := true }
      SigKind.ice "y" "r" ["A"] (by rfl) (by rfl) (by rfl) (by decide),
    ?_, ?_⟩
  · have h := claim_C4_amended.2.2 (run initState [Event.connect "A", Event.connect "B",
        Event.joinRoom "A" (some "r"), Event.joinRoom "B" (some "r")]) "A"
      { wsOpen := true, roomId := some "r", isInitiator := true } SigKind.offer "sdp0"
      "r" "A" "B" { wsOpen := true, roomId := some "r", isInitiator := false }
      (by rfl) (by rfl) (by rfl) (by decide) (Or.inl rfl) (by decide)
    simpa using h
  · have h := claim_C4_amended.2.2 (run initState [Event.connect "A", Event.connect "B",
        Event.joinRoom "A" (some "r"), Event.joinRoom "B" (some "r"),
        Event.sockDied "B"]) "A"
      { wsOpen := true, roomId := some "r", isInitiator := true } SigKind.offer "sdp0"
      "r" "A" "B" { wsOpen := false, roomId := some "r", isInitiator := false }
      (by rfl) (by rfl) (by rfl) (by decide) (Or.inl rfl) (by decide)
    simpa using h

/-! ### Store lemmas -/

theorem mfind_append {α : Type} (l₁ l₂ : List (String × α)) (k : String) :
    mfind (l₁ ++ l₂) k =
      match mfind l₁ k with
      | some v => some v
      | none => mfind l₂ k := by
  induction l₁ with
  | nil => simp [mfind]
  | cons hd t ih =>
    obtain ⟨k', v⟩ := hd
    by_cases hk : k' = k <;> simp [mfind, hk, ih]

theorem mfind_eq_none_iff {α : Type} (l : List (String × α)) (k : String) :
    mfind l k = none ↔ k ∉ l.map Prod.fst := by
  induction l with
  | nil => simp [mfind]
  | cons hd t ih =>
    obtain ⟨k', v⟩ := hd
    by_cases hk : k' = k
    · subst hk
      simp [mfind]
    · simp only [mfind, if_neg hk, ih, List.map_cons, List.mem_cons]
      constructor
      · intro h hmem
        rcases hmem with h1 | h1
        · exact hk h1.symm
        · exact h h1
      · intro h hmem
        exact h (Or.inr hmem)

theorem mfind_filter {α : Type} (l : List (String × α)) (pred : String × α → Bool)
    (k : String) (hpk : (l.map Prod.fst).Nodup) :
    mfind (l.filter pred) k =
      match mfind l k with
      | some v => if pred (k, v) then some v else none
      | none => none := by
  induction l with
  | nil => rfl
  | cons hd t ih =>
    obtain ⟨k', v⟩ := hd
    have hpk' : (t.map Prod.fst).Nodup := (List.nodup_cons.mp hpk).2
    have hnotin : k' ∉ t.map Prod.fst := (List.nodup_cons.mp hpk).1
    by_cases hk : k' = k
    · subst hk
      cases hpred : pred (k', v)
      · have hnone : mfind (t.filter pred) k' = none := by
          rw [mfind_eq_none_iff]
          intro hmem
          exact hnotin (((List.filter_sublist t).map Prod.fst).subset hmem)
        simp [List.filter_cons, hpred, mfind, hnone]
      · simp [List.filter_cons, hpred, mfind]
    · cases hpred : pred (k', v) <;>
        simp [List.filter_cons, hpred, mfind, hk, ih hpk']

theorem pk_keys_filter {α : Type} (l : List (String × α)) (pred : String × α → Bool)
    (hpk : (l.map Prod.fst).Nodup) : ((l.filter pred).map Prod.fst).Nodup :=
  List.Nodup.sublist ((List.filter_sublist l).map Prod.fst) hpk

theorem keys_acceptUpdate (l : List (String × PendingRow)) (jid c2 : String) (now : Int) :
    ((l.map (fun q =>
      if q.1 = jid ∧ now < q.2.exp then (q.1, { q.2 with client2 := some c2 }) else q)).map
        Prod.fst) = l.map Prod.fst := by
  induction l with
  | nil => rfl
  | cons hd t ih =>
    by_cases hcond : hd.1 = jid ∧ now < hd.2.exp <;>
      simp [hcond, ih]

theorem mfind_acceptUpdate (l : List (String × PendingRow)) (jid c2 : String) (now : Int)
    (k : String) :
    mfind (l.map (fun q =>
      if q.1 = jid ∧ now < q.2.exp then (q.1, { q.2 with client2 := some c2 }) else q)) k =
    (mfind l k).map (fun p =>
      if k = jid ∧ now < p.exp then { p with client2 := some c2 } else p) := by
  induction l with
  | nil => rfl
  | cons hd t ih =>
    obtain ⟨k', v⟩ := hd
    simp only [List.map_cons]
    by_cases hcond : k' = jid ∧ now < v.exp
    · rw [if_pos hcond]
      by_cases hk : k' = k
      · subst hk
        simp only [mfind, if_pos rfl, if_true, Option.map_some']
        rw [if_pos hcond]
      · simp only [mfind, if_neg hk]
        exact ih
    · rw [if_neg hcond]
      by_cases hk : k' = k
      · subst hk
        simp only [mfind, if_pos rfl, if_true, Option.map_some']
        rw [if_neg hcond]
      · simp only [mfind, if_neg hk]
        exact ih

theorem purgeExpired_idem (l : List (String × PendingRow)) (now : Int) :
    purgeExpired (purgeExpired l now) now = purgeExpired l now := by
  induction l with
  | nil => rfl
  | cons hd t ih =>
    cases hpred : decide (now < hd.2.exp) <;>
      simp [purgeExpired, List.filter_cons, hpred]

theorem mfind_purgeExpired (l : List (String × PendingRow)) (now : Int) (k : String)
    (hpk : (l.map Prod.fst).Nodup) :
    mfind (purgeExpired l now) k =
      match mfind l k with
      | some p => if now < p.exp then some p else none
      | none => none := by
  unfold purgeExpired
  rw [mfind_filter l _ k hpk]
  cases mfind l k with
  | none => rfl
  | some p => by_cases h : now < p.exp <;> simp [h]

/-- Pending-row fixture used by concrete store witnesses. -/
def pRow (c1 : String) (e : Int) (c2 : Option String) : PendingRow :=
  { client1 := c1, exp := e, client2 := c2, client1_token := none, platform := none }

/-- Room-row fixture used by concrete store witnesses. -/
def rRow (c1 c2 : String) : RoomRow :=
  { client1 := c1, client2 := c2, client1_token := none, client2_token := none,
    client1_platform := none, client2_platform := none }

/-! ### Claim C5 -/

/-- Claim C5: acceptPendingToRoom on a join code whose pending has expired
(expiry at or before the store's `now` for this call) returns
not_found_or_expired and creates no durable room row, for every such `now`
(i.e. for any wait beyond the expiry).  The room id freshness hypothesis
mirrors the accept route, which always passes a freshly generated hash. -/
theorem claim_C5 (db : Db) (now : Int) (jid c2 rid : String) (tok plat : Option String)
    (p : PendingRow)
    (hpk : pendingsPK db)
    (hp : mfind db.pendings jid = some p)
    (hexp : p.exp ≤ now)
    (hfresh : mfind db.rooms rid = none) :
    (acceptPendingToRoom db now jid c2 rid tok plat).2 = AcceptRes.notFoundOrExpired ∧
    (acceptPendingToRoom db now jid c2 rid tok plat).1.rooms = db.rooms := by
  have h1 : mfind (purgeExpired db.pendings now) jid = none := by
    rw [mfind_purgeExpired db.pendings now jid hpk, hp]
    simp [not_lt.mpr hexp]
  unfold acceptPendingToRoom
  simp only [h1]
  simp only [hfresh]
  exact ⟨by trivial, by trivial⟩

/-- Witness for C5: a pending that expired at time 5, accepted at time 10000,
is refused and no room is created. -/
theorem claim_C5_witness :
    (acceptPendingToRoom ⟨[("j", pRow "A" 5 none)], []⟩ 10000 "j" "B" "rm1"
      none none).2 = AcceptRes.notFoundOrExpired ∧
    (acceptPendingToRoom ⟨[("j", pRow "A" 5 none)], []⟩ 10000 "j" "B" "rm1"
      none none).1.rooms = ([] : List (String × RoomRow)) :=
  claim_C5 ⟨[("j", pRow "A" 5 none)], []⟩ 10000 "j" "B" "rm1" none none
    (pRow "A" 5 none) (by simp [pendingsPK]) (by rfl) (by decide) (by rfl)

/-! ### Claim C10 -/

/-- Claim C10: acceptPendingToRoom for an unexpired pending that already has a
(non-empty) acceptor recorded returns failure (not_found_or_expired) and
creates no room, yet the transaction's unconditional
UPDATE pendings SET client2=... still overwrites the stored acceptor with the
new caller's id: the pending is mutated on this error path. -/
theorem claim_C10 (db : Db) (now : Int) (jid c2 rid : String) (tok plat : Option String)
    (p : PendingRow) (a : String)
    (hpk : pendingsPK db)
    (hp : mfind db.pendings jid = some p)
    (hunexp : now < p.exp)
    (hacc : p.client2 = some a) (ha : a ≠ "")
    (hfresh : mfind db.rooms rid = none) :
    (acceptPendingToRoom db now jid c2 rid tok plat).2 = AcceptRes.notFoundOrExpired ∧
    (acceptPendingToRoom db now jid c2 rid tok plat).1.rooms = db.rooms ∧
    mfind (acceptPendingToRoom db now jid c2 rid tok plat).1.pendings jid =
      some { p with client2 := some c2 } := by
  have h1 : mfind (purgeExpired db.pendings now) jid = some p := by
    rw [mfind_purgeExpired db.pendings now jid hpk, hp]
    simp [hunexp]
  have hcondF : ¬ (now < p.exp ∧ (p.client2 = none ∨ p.client2 = some "")) := by
    simp [hacc, ha]
  have hpk1 : ((purgeExpired db.pendings now).map Prod.fst).Nodup := pk_keys_filter _ _ hpk
  have h2 : mfind ((purgeExpired db.pendings now).map (fun q =>
      if q.1 = jid ∧ now < q.2.exp then (q.1, { q.2 with client2 := some c2 }) else q)) jid =
      some { p with client2 := some c2 } := by
    rw [mfind_acceptUpdate, h1]
    simp [hunexp]
  have hpk2 : (((purgeExpired db.pendings now).map (fun q =>
      if q.1 = jid ∧ now < q.2.exp then (q.1, { q.2 with client2 := some c2 }) else q)).map
        Prod.fst).Nodup := by
    rw [keys_acceptUpdate]
    exact hpk1
  have h3 : mfind (purgeExpired ((purgeExpired db.pendings now).map (fun q =>
      if q.1 = jid ∧ now < q.2.exp then (q.1, { q.2 with client2 := some c2 }) else q)) now)
        jid = some { p with client2 := some c2 } := by
    rw [mfind_purgeExpired _ now jid hpk2, h2]
    simp [hunexp]
  unfold acceptPendingToRoom
  simp only [h1]
  rw [if_neg hcondF]
  simp only [hfresh]
  exact ⟨by trivial, by trivial, h3⟩

/-- Witness for C10: pending j already accepted by B; C's accept fails but
overwrites the stored acceptor with C. -/
theorem claim_C10_witness :
    (acceptPendingToRoom ⟨[("j", pRow "A" 10000 (some "B"))], []⟩ 0 "j" "C" "rm2"
      none none).2 = AcceptRes.notFoundOrExpired ∧
    (acceptPendingToRoom ⟨[("j", pRow "A" 10000 (some "B"))], []⟩ 0 "j" "C" "rm2"
      none none).1.rooms = ([] : List (String × RoomRow)) ∧
    mfind (acceptPendingToRoom ⟨[("j", pRow "A" 10000 (some "B"))], []⟩ 0 "j" "C" "rm2"
      none none).1.pendings "j" = some (pRow "A" 10000 (some "C")) :=
  claim_C10 ⟨[("j", pRow "A" 10000 (some "B"))], []⟩ 0 "j" "C" "rm2" none none
    (pRow "A" 10000 (some "B")) "B"
    (by simp [pendingsPK]) (by rfl) (by decide) (by rfl) (by decide) (by rfl)

theorem postApiRooms_fresh_spec (db : Db) (now : Int) (b : CreateBody)
    (jid c1 : String) (secs : Int)
    (hj : b.joinid = some jid) (hjne : jid ≠ "")
    (hc : b.client1 = some c1) (hc1ne : c1 ≠ "")
    (hs : b.expiresInSeconds = some secs) (h1le : 1 ≤ secs) (h2le : secs ≤ 86400)
    (hfresh : mfind db.pendings jid = none) :
    (postApiRooms db now b).2 = CreateResp.created (now + secs * 1000) ∧
    mfind (postApiRooms db now b).1.pendings jid =
      some { client1 := c1, exp := now + secs * 1000, client2 := none,
             client1_token := none, platform := none } := by
  have hnotrange : ¬ (secs < 1 ∨ 86400 < secs) := by omega
  have hlt : now < now + secs * 1000 := by omega
  have hrow : mfind (purgeExpired (db.pendings ++
      [(jid, { client1 := c1, exp := now + secs * 1000, client2 := none,
               client1_token := none, platform := none })]) now) jid =
      some { client1 := c1, exp := now + secs * 1000, client2 := none,
             client1_token := none, platform := none } := by
    have hsplit : purgeExpired (db.pendings ++
        [(jid, { client1 := c1, exp := now + secs * 1000, client2 := none,
                 client1_token := none, platform := none })]) now =
        purgeExpired db.pendings now ++
        [(jid, { client1 := c1, exp := now + secs * 1000, client2 := none,
                 client1_token := none, platform := none })] := by
      simp [purgeExpired, List.filter_append, List.filter_cons, hlt]
    have hnone : mfind (purgeExpired db.pendings now) jid = none := by
      rw [mfind_eq_none_iff]
      intro hmem
      exact (mfind_eq_none_iff db.pendings jid).mp hfresh
        (((List.filter_sublist db.pendings).map Prod.fst).subset hmem)
    rw [hsplit, mfind_append, hnone]
    simp [mfind]
  unfold postApiRooms
  rw [hj, hc, hs]
  simp only [fieldMissing, beq_iff_eq, hjne, hc1ne]
  simp only [if_false, Bool.false_eq_true, reduceCtorEq, ite_false, Option.getD_some]
  rw [if_neg hnotrange]
  unfold createPending
  rw [hfresh]
  exact ⟨rfl, hrow⟩

/-! ### Claim C6 -/

/-- Claim C6: the create route rejects every expiresInSeconds outside
[1, 86400] with the typed invalid_expiresInSeconds 400 response and no state
change; for every accepted duration it computes the stored expiry as the
server's own `now` plus the duration (the request body carries no absolute
timestamp at all, so a caller-supplied absolute time is never used), stores
exactly that expiry, and returns it to the caller (201). -/
theorem claim_C6 :
    (∀ (db : Db) (now : Int) (b : CreateBody) (jid c1 : String) (secs : Int),
      b.joinid = some jid → jid ≠ "" → b.client1 = some c1 → c1 ≠ "" →
      b.expiresInSeconds = some secs → (secs < 1 ∨ 86400 < secs) →
      postApiRooms db now b = (db, CreateResp.invalidSeconds) ∧
      CreateResp.status CreateResp.invalidSeconds = 400) ∧
    (∀ (db : Db) (now : Int) (b : CreateBody) (jid c1 : String) (secs : Int),
      b.joinid = some jid → jid ≠ "" → b.client1 = some c1 → c1 ≠ "" →
      b.expiresInSeconds = some secs → 1 ≤ secs → secs ≤ 86400 →
      mfind db.pendings jid = none →
      (postApiRooms db now b).2 = CreateResp.created (now + secs * 1000) ∧
      mfind (postApiRooms db now b).1.pendings jid =
        some { client1 := c1, exp := now + secs * 1000, client2 := none,
               client1_token := none, platform := none }) := by
  constructor
  · intro db now b jid c1 secs hj hjne hc hc1ne hs hrange
    unfold postApiRooms
    rw [hj, hc, hs]
    simp only [fieldMissing, beq_iff_eq, hjne, hc1ne]
    simp only [if_false, Bool.false_eq_true, reduceCtorEq, ite_false, Option.getD_some]
    rw [if_pos hrange]
    exact ⟨rfl, rfl⟩
  · intro db now b jid c1 secs hj hjne hc hc1ne hs h1le h2le hfresh
    exact postApiRooms_fresh_spec db now b jid c1 secs hj hjne hc hc1ne hs h1le h2le hfresh

/-- Witness for C6: a rejected duration (0) and an accepted one (60 seconds at
server time 100, stored and returned expiry 60100). -/
theorem claim_C6_witness :
    (postApiRooms ⟨[], []⟩ 0
        { joinid := some "j", client1 := some "A", expiresInSeconds := some 0 } =
      (⟨[], []⟩, CreateResp.invalidSeconds) ∧
      CreateResp.status CreateResp.invalidSeconds = 400) ∧
    ((postApiRooms ⟨[], []⟩ 100
        { joinid := some "j", client1 := some "A", expiresInSeconds := some 60 }).2 =
      CreateResp.created 60100 ∧
      mfind (postApiRooms ⟨[], []⟩ 100
        { joinid := some "j", client1 := some "A", expiresInSeconds := some 60 }).1.pendings
        "j" = some { client1 := "A", exp := 60100, client2 := none,
                     client1_token := none, platform := none }) := by
  constructor
  · exact claim_C6.1 ⟨[], []⟩ 0
      { joinid := some "j", client1 := some "A", expiresInSeconds := some 0 }
      "j" "A" 0 (by rfl) (by decide) (by rfl) (by decide) (by rfl) (by omega)
  · have h := claim_C6.2 ⟨[], []⟩ 100
      { joinid := some "j", client1 := some "A", expiresInSeconds := some 60 }
      "j" "A" 60 (by rfl) (by decide) (by rfl) (by decide) (by rfl)
      (by omega) (by omega) (by rfl)
    simpa using h

/-! ### Claim C8 -/

/-- Counterexample to C8 as stated: with an unexpired pending for join code j
already present, a second create for j is answered with the generic 500
create_failed store error (the primary-key violation is not mapped to a typed
DuplicateJoinCode rejection); and with only an expired-but-not-yet-purged
pending for j present, the create does not succeed either -- it fails the same
way, because the route performs no lazy purge before the INSERT and the
AFTER INSERT cleanup trigger never fires when the INSERT itself is rejected. -/
theorem claim_C8_counterexample :
    (postApiRooms ⟨[("j", pRow "A" 10000 none)], []⟩ 0
        { joinid := some "j", client1 := some "C", expiresInSeconds := some 60 } =
      (⟨[("j", pRow "A" 10000 none)], []⟩, CreateResp.createFailed)) ∧
    CreateResp.status CreateResp.createFailed = 500 ∧
    (postApiRooms ⟨[("j", pRow "A" 5 none)], []⟩ 10000
        { joinid := some "j", client1 := some "C", expiresInSeconds := some 60 } =
      (⟨[("j", pRow "A" 5 none)], []⟩, CreateResp.createFailed)) := by
  refine ⟨by rfl, by rfl, by rfl⟩

/-- C8 amended: createPending for a join code for which ANY pending row is
still present -- unexpired or expired but not yet purged -- fails with the
generic 500 create_failed store error and changes nothing; the create succeeds
(201, row stored) exactly when no row with that join code remains. -/
theorem claim_C8_amended :
    (∀ (db : Db) (now : Int) (b : CreateBody) (jid c1 : String) (secs : Int)
        (p : PendingRow),
      b.joinid = some jid → jid ≠ "" → b.client1 = some c1 → c1 ≠ "" →
      b.expiresInSeconds = some secs → 1 ≤ secs → secs ≤ 86400 →
      mfind db.pendings jid = some p →
      postApiRooms db now b = (db, CreateResp.createFailed) ∧
      CreateResp.status CreateResp.createFailed = 500) ∧
    (∀ (db : Db) (now : Int) (b : CreateBody) (jid c1 : String) (secs : Int),
      b.joinid = some jid → jid ≠ "" → b.client1 = some c1 → c1 ≠ "" →
      b.expiresInSeconds = some secs → 1 ≤ secs → secs ≤ 86400 →
      mfind db.pendings jid = none →
      (postApiRooms db now b).2 = CreateResp.created (now + secs * 1000)) := by
  constructor
  · intro db now b jid c1 secs p hj hjne hc hc1ne hs h1le h2le hp
    have hnotrange : ¬ (secs < 1 ∨ 86400 < secs) := by omega
    unfold postApiRooms
    rw [hj, hc, hs]
    simp only [fieldMissing, beq_iff_eq, hjne, hc1ne]
    simp only [if_false, Bool.false_eq_true, reduceCtorEq, ite_false, Option.getD_some]
    rw [if_neg hnotrange]
    unfold createPending
    rw [hp]
    exact ⟨rfl, rfl⟩
  · intro db now b jid c1 secs hj hjne hc hc1ne hs h1le h2le hfresh
    exact (postApiRooms_fresh_spec db now b jid c1 secs hj hjne hc hc1ne hs h1le h2le
      hfresh).1

/-- Witness for the amended C8: the two counterexample databases, plus a fresh
join code succeeding. -/
theorem claim_C8_amended_witness :
    (postApiRooms ⟨[("j", pRow "A" 10000 none)], []⟩ 0
        { joinid := some "j", client1 := some "C", expiresInSeconds := some 60 } =
      (⟨[("j", pRow "A" 10000 none)], []⟩, CreateResp.createFailed) ∧
      CreateResp.status CreateResp.createFailed = 500) ∧
    (postApiRooms ⟨[], []⟩ 100
        { joinid := some "k", client1 := some "A", expiresInSeconds := some 60 }).2 =
      CreateResp.created 60100 := by
  constructor
  · exact claim_C8_amended.1 ⟨[("j", pRow "A" 10000 none)], []⟩ 0
      { joinid := some "j", client1 := some "C", expiresInSeconds := some 60 }
      "j" "C" 60 (pRow "A" 10000 none)
      (by rfl) (by decide) (by rfl) (by decide) (by rfl) (by omega) (by omega) (by rfl)
  · have h := claim_C8_amended.2 ⟨[], []⟩ 100
      { joinid := some "k", client1 := some "A", expiresInSeconds := some 60 }
      "k" "A" 60 (by rfl) (by decide) (by rfl) (by decide) (by rfl)
      (by omega) (by omega) (by rfl)
    simpa using h

/-- The room row the accept transaction inserts, built from the matched
pending row and the acceptor's data. -/
def roomFromPending (p : PendingRow) (c2 : String) (tok plat : Option String) : RoomRow :=
  { client1 := p.client1, client2 := c2, client1_token := p.client1_token,
    client2_token := tok, client1_platform := p.platform, client2_platform := plat }

/-! ### Claim C2 -/

theorem accept_pendings_eq (db : Db) (now : Int) (jid c2 rid : String)
    (tok plat : Option String) :
    (acceptPendingToRoom db now jid c2 rid tok plat).1.pendings =
      purgeExpired ((purgeExpired db.pendings now).map (fun q =>
        if q.1 = jid ∧ now < q.2.exp then (q.1, { q.2 with client2 := some c2 }) else q))
        now := by
  unfold acceptPendingToRoom
  dsimp only
  split <;> rfl

theorem accept_pk (db : Db) (now : Int) (jid c2 rid : String) (tok plat : Option String)
    (hpk : pendingsPK db) :
    pendingsPK (acceptPendingToRoom db now jid c2 rid tok plat).1 := by
  unfold pendingsPK
  rw [accept_pendings_eq]
  apply pk_keys_filter
  rw [keys_acceptUpdate]
  exact pk_keys_filter _ _ hpk

theorem accept_marks_accepted (db : Db) (now : Int) (jid c2 rid : String)
    (tok plat : Option String) (p : PendingRow)
    (hpk : pendingsPK db) (hp : mfind db.pendings jid = some p) (hunexp : now < p.exp) :
    mfind (acceptPendingToRoom db now jid c2 rid tok plat).1.pendings jid =
      some { p with client2 := some c2 } := by
  rw [accept_pendings_eq]
  have h1 : mfind (purgeExpired db.pendings now) jid = some p := by
    rw [mfind_purgeExpired db.pendings now jid hpk, hp]
    simp [hunexp]
  have hpk1 : ((purgeExpired db.pendings now).map Prod.fst).Nodup := pk_keys_filter _ _ hpk
  have hpk2 : (((purgeExpired db.pendings now).map (fun q =>
      if q.1 = jid ∧ now < q.2.exp then (q.1, { q.2 with client2 := some c2 }) else q)).map
        Prod.fst).Nodup := by
    rw [keys_acceptUpdate]
    exact hpk1
  rw [mfind_purgeExpired _ now jid hpk2, mfind_acceptUpdate, h1]
  simp [hunexp]

theorem accept_after_accepted (db2 : Db) (now' : Int) (jid c2' rid' : String)
    (tok' plat' : Option String) (q : PendingRow) (b : String)
    (hpk2 : pendingsPK db2)
    (hq : mfind db2.pendings jid = some q)
    (hqacc : q.client2 = some b) (hbne : b ≠ "")
    (hfresh' : mfind db2.rooms rid' = none) :
    (acceptPendingToRoom db2 now' jid c2' rid' tok' plat').2 =
      AcceptRes.notFoundOrExpired ∧
    (acceptPendingToRoom db2 now' jid c2' rid' tok' plat').1.rooms = db2.rooms := by
  by_cases hlt' : now' < q.exp
  · have h1 : mfind (purgeExpired db2.pendings now') jid = some q := by
      rw [mfind_purgeExpired _ _ _ hpk2, hq]
      simp [hlt']
    have hcondF : ¬ (now' < q.exp ∧ (q.client2 = none ∨ q.client2 = some "")) := by
      simp [hqacc, hbne]
    unfold acceptPendingToRoom
    simp only [h1]
    rw [if_neg hcondF]
    simp only [hfresh']
    exact ⟨by trivial, by trivial⟩
  · have h1 : mfind (purgeExpired db2.pendings now') jid = none := by
      rw [mfind_purgeExpired _ _ _ hpk2, hq]
      simp [hlt']
    unfold acceptPendingToRoom
    simp only [h1]
    simp only [hfresh']
    exact ⟨by trivial, by trivial⟩

/-- Claim C2: a successful acceptPendingToRoom (with the route's fresh room id
and non-empty acceptor id) adds exactly one room row for the join code, marks
the pending as accepted by storing the acceptor id instead of deleting the row,
and every later acceptPendingToRoom for the same join code (again with a fresh
room id) fails with not_found_or_expired -- which is within the claim's
"Conflict or NotFoundOrExpired" -- and creates no second room row. -/
theorem claim_C2 (db : Db) (now : Int) (jid c2 rid : String) (tok plat : Option String)
    (c1r : Option String)
    (hpk : pendingsPK db) (hc2 : c2 ≠ "") (hfresh : mfind db.rooms rid = none)
    (hok : (acceptPendingToRoom db now jid c2 rid tok plat).2 = AcceptRes.ok rid c1r) :
    (∃ p : PendingRow, mfind db.pendings jid = some p ∧ now < p.exp ∧
      (acceptPendingToRoom db now jid c2 rid tok plat).1.rooms =
        db.rooms ++ [(rid, roomFromPending p c2 tok plat)]) ∧
    (∃ p' : PendingRow,
      mfind (acceptPendingToRoom db now jid c2 rid tok plat).1.pendings jid = some p' ∧
      p'.client2 = some c2) ∧
    (∀ (now' : Int) (c2' rid' : String) (tok' plat' : Option String),
      mfind (acceptPendingToRoom db now jid c2 rid tok plat).1.rooms rid' = none →
      (acceptPendingToRoom (acceptPendingToRoom db now jid c2 rid tok plat).1
          now' jid c2' rid' tok' plat').2 = AcceptRes.notFoundOrExpired ∧
      (acceptPendingToRoom (acceptPendingToRoom db now jid c2 rid tok plat).1
          now' jid c2' rid' tok' plat').1.rooms =
        (acceptPendingToRoom db now jid c2 rid tok plat).1.rooms) := by
  cases hm1 : mfind (purgeExpired db.pendings now) jid with
  | none =>
    exfalso
    unfold acceptPendingToRoom at hok
    simp only [hm1] at hok
    simp only [hfresh] at hok
    exact AcceptRes.noConfusion hok
  | some p =>
    have hdb : mfind db.pendings jid = some p ∧ now < p.exp := by
      have heq := mfind_purgeExpired db.pendings now jid hpk
      rw [hm1] at heq
      cases hq : mfind db.pendings jid with
      | none =>
        rw [hq] at heq
        exact Option.noConfusion heq
      | some q =>
        rw [hq] at heq
        dsimp only at heq
        by_cases hlt : now < q.exp
        · rw [if_pos hlt] at heq
          injection heq with h'
          exact ⟨by rw [h'], by rw [h']; exact hlt⟩
        · rw [if_neg hlt] at heq
          exact Option.noConfusion heq
    by_cases hcond : now < p.exp ∧ (p.client2 = none ∨ p.client2 = some "")
    · have hrooms : (acceptPendingToRoom db now jid c2 rid tok plat).1.rooms =
          db.rooms ++ [(rid, roomFromPending p c2 tok plat)] := by
        unfold acceptPendingToRoom
        simp only [hm1]
        rw [if_pos hcond]
        simp only [hfresh]
        split <;> rfl
      refine ⟨⟨p, hdb.1, hcond.1, hrooms⟩, ?_, ?_⟩
      · exact ⟨{ p with client2 := some c2 },
          accept_marks_accepted db now jid c2 rid tok plat p hpk hdb.1 hcond.1, rfl⟩
      · intro now' c2' rid' tok' plat' hfresh'
        exact accept_after_accepted (acceptPendingToRoom db now jid c2 rid tok plat).1
          now' jid c2' rid' tok' plat' { p with client2 := some c2 } c2
          (accept_pk db now jid c2 rid tok plat hpk)
          (accept_marks_accepted db now jid c2 rid tok plat p hpk hdb.1 hcond.1)
          rfl hc2 hfresh'
    · exfalso
      unfold acceptPendingToRoom at hok
      simp only [hm1] at hok
      rw [if_neg hcond] at hok
      simp only [hfresh] at hok
      exact AcceptRes.noConfusion hok

/-- Witness for C2: after B's successful accept of pending j, C's later accept
with a fresh room id fails and adds no room row. -/
theorem claim_C2_witness :
    (acceptPendingToRoom
        (acceptPendingToRoom ⟨[("j", pRow "A" 10000 none)], []⟩ 0 "j" "B" "rm1"
          none none).1 5 "j" "C" "rm2" none none).2 =
      AcceptRes.notFoundOrExpired ∧
    (acceptPendingToRoom
        (acceptPendingToRoom ⟨[("j", pRow "A" 10000 none)], []⟩ 0 "j" "B" "rm1"
          none none).1 5 "j" "C" "rm2" none none).1.rooms =
      (acceptPendingToRoom ⟨[("j", pRow "A" 10000 none)], []⟩ 0 "j" "B" "rm1"
        none none).1.rooms :=
  (claim_C2 ⟨[("j", pRow "A" 10000 none)], []⟩ 0 "j" "B" "rm1" none none (some "A")
    (by simp [pendingsPK]) (by decide) (by rfl) (by rfl)).2.2 5 "C" "rm2" none none
    (by rfl)

/-! ### Claim C7 -/

theorem checkPending_fst (db : Db) (now : Int) (jid c1 : String) :
    (checkPending db now jid c1).1 = ⟨purgeExpired db.pendings now, db.rooms⟩ := by
  unfold checkPending
  dsimp only
  repeat' split
  all_goals rfl

theorem checkPending_ready_inv (db : Db) (now : Int) (jid c1 rid : String)
    (h : (checkPending db now jid c1).2 = CheckRes.ready rid) :
    ∃ q : String × PendingRow,
      (purgeExpired db.pendings now).find? (fun q =>
        q.1 == jid && q.2.client1 == c1 && decide (now < q.2.exp)) = some q ∧
      ∃ c2, q.2.client2 = some c2 ∧ ¬ c2 = "" ∧
      ∃ r : String × RoomRow,
        db.rooms.find? (fun r => r.2.client1 == c1 && r.2.client2 == c2) = some r ∧
        rid = r.1 := by
  unfold checkPending at h
  dsimp only at h
  split at h
  · exact CheckRes.noConfusion h
  · rename_i q hf
    split at h
    · exact CheckRes.noConfusion h
    · rename_i c2 hc2
      split at h
      · exact CheckRes.noConfusion h
      · rename_i hc2ne
        split at h
        · exact CheckRes.noConfusion h
        · rename_i r hr
          injection h with h'
          exact ⟨q, hf, c2, hc2, hc2ne, r, hr, h'.symm⟩

/-- Counterexample to C7 as stated: with pending j accepted by B and the
durable room rm recorded, the first HTTP check returns 200 with rm but the
handler itself immediately deletes the pending, so the repeated check returns
404 not_found_or_expired instead of the same room id. -/
theorem claim_C7_counterexample :
    postApiRoomsCheck ⟨[("j", pRow "A" 100 (some "B"))], [("rm", rRow "A" "B")]⟩ 50
      (some "j") (some "A") =
      (⟨[], [("rm", rRow "A" "B")]⟩, CheckResp.ok "rm") ∧
    postApiRoomsCheck ⟨[], [("rm", rRow "A" "B")]⟩ 50 (some "j") (some "A") =
      (⟨[], [("rm", rRow "A" "B")]⟩, CheckResp.notFound) := by
  refine ⟨by rfl, by rfl⟩

/-- C7 amended: the checkPending STORE operation is read-only except for the
lazy purge of expired pendings (rooms unchanged, pendings merely filtered),
and when it reports ready the store call itself leaves the pending in place,
so a repeated store-level checkPending returns the same room id; however the
HTTP check ROUTE, upon the ready status, itself issues deletePending before
responding 200, so the pending is removed as part of serving that check (and a
repeated HTTP check then finds nothing, as the counterexample shows). -/
theorem claim_C7_amended :
    (∀ (db : Db) (now : Int) (jid c1 : String),
      (checkPending db now jid c1).1.rooms = db.rooms ∧
      (checkPending db now jid c1).1.pendings = purgeExpired db.pendings now) ∧
    (∀ (db : Db) (now : Int) (jid c1 rid : String),
      (checkPending db now jid c1).2 = CheckRes.ready rid →
      checkPending (checkPending db now jid c1).1 now jid c1 =
        ((checkPending db now jid c1).1, CheckRes.ready rid)) ∧
    (∀ (db : Db) (now : Int) (jid c1 rid : String),
      jid ≠ "" → c1 ≠ "" →
      (checkPending db now jid c1).2 = CheckRes.ready rid →
      postApiRoomsCheck db now (some jid) (some c1) =
        ((deletePending (checkPending db now jid c1).1 jid c1).1, CheckResp.ok rid)) := by
  refine ⟨?_, ?_, ?_⟩
  · intro db now jid c1
    rw [checkPending_fst]
    exact ⟨rfl, rfl⟩
  · intro db now jid c1 rid h
    obtain ⟨q, hf, c2, hc2, hc2ne, r, hr, hridr⟩ := checkPending_ready_inv db now jid c1 rid h
    rw [checkPending_fst]
    unfold checkPending
    dsimp only
    rw [purgeExpired_idem]
    rw [hf]
    simp only [hc2]
    rw [if_neg hc2ne]
    rw [hr]
    rw [hridr]
  · intro db now jid c1 rid hjne hc1ne h
    have hpair : checkPending db now jid c1 =
        ((checkPending db now jid c1).1, CheckRes.ready rid) := by
      rw [← h]
    unfold postApiRoomsCheck
    simp only [fieldMissing, beq_iff_eq, hjne, hc1ne]
    simp only [if_false, Bool.false_eq_true, reduceCtorEq, ite_false, Option.getD_some]
    rw [hpair]

/-- Witness for the amended C7 at the counterexample database: the store call
is read-only except the purge, a repeated store-level check still answers rm,
and the route's reply is the deletePending-applied state with 200 rm. -/
theorem claim_C7_amended_witness :
    ((checkPending ⟨[("j", pRow "A" 100 (some "B"))], [("rm", rRow "A" "B")]⟩ 50
        "j" "A").1.rooms = [("rm", rRow "A" "B")] ∧
      (checkPending ⟨[("j", pRow "A" 100 (some "B"))], [("rm", rRow "A" "B")]⟩ 50
        "j" "A").1.pendings =
        purgeExpired [("j", pRow "A" 100 (some "B"))] 50) ∧
    checkPending (checkPending ⟨[("j", pRow "A" 100 (some "B"))],
        [("rm", rRow "A" "B")]⟩ 50 "j" "A").1 50 "j" "A" =
      ((checkPending ⟨[("j", pRow "A" 100 (some "B"))], [("rm", rRow "A" "B")]⟩ 50
        "j" "A").1, CheckRes.ready "rm") ∧
    postApiRoomsCheck ⟨[("j", pRow "A" 100 (some "B"))], [("rm", rRow "A" "B")]⟩ 50
      (some "j") (some "A") =
      ((deletePending (checkPending ⟨[("j", pRow "A" 100 (some "B"))],
          [("rm", rRow "A" "B")]⟩ 50 "j" "A").1 "j" "A").1, CheckResp.ok "rm") :=
  ⟨claim_C7_amended.1 ⟨[("j", pRow "A" 100 (some "B"))], [("rm", rRow "A" "B")]⟩ 50
      "j" "A",
   claim_C7_amended.2.1 ⟨[("j", pRow "A" 100 (some "B"))], [("rm", rRow "A" "B")]⟩ 50
      "j" "A" "rm" (by rfl),
   claim_C7_amended.2.2 ⟨[("j", pRow "A" 100 (some "B"))], [("rm", rRow "A" "B")]⟩ 50
      "j" "A" "rm" (by decide) (by decide) (by rfl)⟩

end ChatServer
